import Mathlib

/-!
Verification of `scripts/github-org-labels-to-csv.js`.

The script is a sequential API client: it lists the repositories of a
GitHub organization, fetches each repository's labels, and writes a CSV
file `labels.csv`.  We embed the script shallowly: network responses and
the command-line argument become an explicit environment `Env`, the
`main` function becomes the pure function `run : Env → RunOutcome`, and
the observable side effects (network calls, the rate-limit pause, the
file write) are recorded as an explicit trace of `Event`s.
-/

namespace GhLabels

/-- A JavaScript value as it can appear in the `description` field of a
label object returned by the API.  The script only ever checks the value
for falsiness (`label.description || ''`) and coerces it into a template
literal, so this universe of values suffices. -/
inductive JSVal where
  | undefined : JSVal
  | null : JSVal
  | str : String → JSVal
  | boolean : Bool → JSVal
  | num : Int → JSVal
deriving DecidableEq, Repr

/-- JavaScript falsiness for the values of `JSVal`. -/
def JSVal.falsy : JSVal → Bool
  | .undefined => true
  | .null => true
  | .str s => s == ""
  | .boolean b => !b
  | .num n => n == 0

/-- The JS expression `v || ''` : the value itself if truthy, else `''`. -/
def JSVal.orEmpty (v : JSVal) : JSVal :=
  if v.falsy then .str "" else v

/-- String coercion as performed by a JS template literal. -/
def JSVal.display : JSVal → String
  | .undefined => "undefined"
  | .null => "null"
  | .str s => s
  | .boolean b => if b then "true" else "false"
  | .num n => toString n

/-- A label object as returned by the labels endpoint:
`{name, description?, color}`. -/
structure Label where
  name : String
  description : JSVal
  color : String
deriving DecidableEq, Repr

/-- A repository object as returned by the repository-listing endpoint;
the script only consumes the `name` field. -/
structure Repo where
  name : String
deriving DecidableEq, Repr

/-- The observable side effects of a run, in order of occurrence:
the repository-listing network call, the per-repository progress step
(the `console.log` before the label fetch), the per-repository label
network call, the `setTimeout` pause (with its duration in ms), and the
attempt to write the output file. -/
inductive Event where
  | netListRepos : String → Event
  | procRepo : String → Event
  | netFetchLabels : String → String → Event
  | pause : Nat → Event
  | writeFile : Event
deriving DecidableEq, Repr

/-- The environment of one run: the command-line argument
`process.argv[2]` and the outcomes of the external calls.  A network
response is `.error statusText` when `response.ok` is false, and `.ok`
with the parsed JSON body otherwise.  `labelsResponse` is keyed by
organization and repository name, mirroring the request URL
`/repos/orgName/name/labels`. -/
structure Env where
  argv2 : Option String
  reposResponse : Except String (List Repo)
  labelsResponse : String → String → Except String (List Label)
  writeResult : Except String Unit

/-- `getAllReposForOrg` (source lines 26–39): one network call; on a
non-ok response it throws
`Failed to fetch repositories for organization orgName: statusText`. -/
def getAllReposForOrg (env : Env) (orgName : String) : Except String (List Repo) :=
  match env.reposResponse with
  | .error statusText =>
      .error ("Failed to fetch repositories for organization " ++ orgName ++ ": " ++ statusText)
  | .ok repos => .ok repos

/-- `getRepoLabels` (source lines 48–61): one network call per repository;
on a non-ok response it throws `Failed to fetch labels for name: statusText`. -/
def getRepoLabels (env : Env) (orgName : String) (repo : Repo) : Except String (List Label) :=
  match env.labelsResponse orgName repo.name with
  | .error statusText =>
      .error ("Failed to fetch labels for " ++ repo.name ++ ": " ++ statusText)
  | .ok labels => .ok labels

/-- One entry of the `allLabels` array (source line 83):
`[repo.name, label.name, label.description || '', label.color]`. -/
structure Row where
  repo : String
  label : String
  description : JSVal
  color : String
deriving DecidableEq, Repr

/-- The push on source line 83 for a single label. -/
def mkRow (repoName : String) (label : Label) : Row :=
  { repo := repoName
    label := label.name
    description := label.description.orEmpty
    color := label.color }

/-- The template literal of source line 96:
`"repo","label","description","#color"`. -/
def renderRow (r : Row) : String :=
  "\"" ++ r.repo ++ "\",\"" ++ r.label ++ "\",\"" ++ r.description.display
    ++ "\",\"#" ++ r.color ++ "\""

/-- JavaScript `Array.prototype.join('\n')`: the elements separated by a
newline, with no leading or trailing separator. -/
def joinNl : List String → String
  | [] => ""
  | [a] => a
  | a :: b :: rest => a ++ "\n" ++ joinNl (b :: rest)

/-- The string written to `labels.csv` (source lines 94–96): the literal
header followed by a newline, then the rendered rows joined by newlines. -/
def csvContent (rows : List Row) : String :=
  "Repo,Label,Description,Color\n" ++ joinNl (rows.map renderRow)

/-- What one iteration of the `for` loop (source lines 77–91) contributes:
rows appended to `allLabels`, stdout lines, stderr lines, and events. -/
structure LoopOut where
  rows : List Row
  out : List String
  err : List String
  events : List Event
deriving Repr

/-- One iteration of the loop body (source lines 77–91): log the progress
notice, fetch the labels, on success push one row per label, on failure
log the error and continue; in either case pause for 1000 ms. -/
def processRepo (env : Env) (orgName : String) (repo : Repo) : LoopOut :=
  let progress := "Fetching labels for " ++ repo.name ++ "..."
  match getRepoLabels env orgName repo with
  | .ok labels =>
      { rows := labels.map (mkRow repo.name)
        out := [progress]
        err := []
        events := [.procRepo repo.name, .netFetchLabels orgName repo.name, .pause 1000] }
  | .error msg =>
      { rows := []
        out := [progress]
        err := ["Error fetching labels for " ++ repo.name ++ ": " ++ msg]
        events := [.procRepo repo.name, .netFetchLabels orgName repo.name, .pause 1000] }

/-- The whole `for` loop, iterating over the listed repositories in order. -/
def processRepos (env : Env) (orgName : String) : List Repo → LoopOut
  | [] => { rows := [], out := [], err := [], events := [] }
  | repo :: rest =>
      let a := processRepo env orgName repo
      let b := processRepos env orgName rest
      { rows := a.rows ++ b.rows
        out := a.out ++ b.out
        err := a.err ++ b.err
        events := a.events ++ b.events }

/-- The observable outcome of one execution of the script. -/
structure RunOutcome where
  exitCode : Nat
  fileWritten : Option String
  stdout : List String
  stderr : List String
  events : List Event
deriving Repr

/-- The truthiness test `if (!orgName)` on source line 69: the argument is
rejected when absent or the empty string. -/
def truthyArg : Option String → Option String
  | none => none
  | some s => if s == "" then none else some s

/-- `main` together with the top-level `main().catch(...)` handler
(source lines 67–104).  A missing (or empty) argument prints a diagnostic
and calls `process.exit(1)`.  A repository-listing failure or a failure
of the final `writeFileSync` rejects the `main()` promise; the `.catch`
handler prints `Failed to execute script: ...` and returns normally, so
the process exits 0 in those cases.  A per-repository label failure is
caught inside the loop and only logged. -/
def run (env : Env) : RunOutcome :=
  match truthyArg env.argv2 with
  | none =>
      { exitCode := 1
        fileWritten := none
        stdout := []
        stderr := ["Please provide a GitHub organization name as an argument."]
        events := [] }
  | some orgName =>
      match getAllReposForOrg env orgName with
      | .error msg =>
          { exitCode := 0
            fileWritten := none
            stdout := []
            stderr := ["Failed to execute script: " ++ msg]
            events := [.netListRepos orgName] }
      | .ok repos =>
          let L := processRepos env orgName repos
          match env.writeResult with
          | .error msg =>
              { exitCode := 0
                fileWritten := none
                stdout := L.out
                stderr := L.err ++ ["Failed to execute script: " ++ msg]
                events := .netListRepos orgName :: L.events ++ [.writeFile] }
          | .ok _ =>
              { exitCode := 0
                fileWritten := some (csvContent L.rows)
                stdout := L.out ++ ["CSV file created: labels.csv"]
                stderr := L.err
                events := .netListRepos orgName :: L.events ++ [.writeFile] }

/-- The rows a single repository contributes to `allLabels`: one per label
when its fetch succeeds, none when it fails. -/
def repoRows (env : Env) (orgName : String) (repo : Repo) : List Row :=
  match getRepoLabels env orgName repo with
  | .ok labels => labels.map (mkRow repo.name)
  | .error _ => []

/-- The last character of a string, if any. -/
def lastChar (s : String) : Option Char :=
  s.data.getLast?

/-- The number of pause events in an event trace. -/
def countPause : List Event → Nat
  | [] => 0
  | .pause _ :: rest => countPause rest + 1
  | _ :: rest => countPause rest

/-- A concrete environment in which the repository-listing call fails with
status text `Not Found`. -/
def envListFail : Env :=
  { argv2 := some "acme"
    reposResponse := .error "Not Found"
    labelsResponse := fun _ _ => .ok []
    writeResult := .ok () }

/-- A concrete environment with two repositories: `core` has one label and
`web`'s label call fails (the worked example of the specification). -/
def envTwoRepos : Env :=
  { argv2 := some "acme"
    reposResponse := .ok [⟨"core"⟩, ⟨"web"⟩]
    labelsResponse := fun _ r =>
      if r == "core" then .ok [⟨"bug", .str "", "d73a4a"⟩] else .error "Not Found"
    writeResult := .ok () }

/-- A concrete environment in which no command-line argument was given. -/
def envNoArg : Env :=
  { argv2 := none
    reposResponse := .ok []
    labelsResponse := fun _ _ => .ok []
    writeResult := .ok () }

/-! ### Helper lemmas -/

theorem processRepo_rows (env : Env) (orgName : String) (repo : Repo) :
    (processRepo env orgName repo).rows = repoRows env orgName repo := by
  unfold processRepo repoRows
  cases getRepoLabels env orgName repo <;> rfl

theorem processRepo_events (env : Env) (orgName : String) (repo : Repo) :
    (processRepo env orgName repo).events
      = [.procRepo repo.name, .netFetchLabels orgName repo.name, .pause 1000] := by
  unfold processRepo
  cases getRepoLabels env orgName repo <;> rfl

theorem processRepos_rows (env : Env) (orgName : String) (repos : List Repo) :
    (processRepos env orgName repos).rows = repos.flatMap (repoRows env orgName) := by
  induction repos with
  | nil => rfl
  | cons repo rest ih =>
      simp [processRepos, ih, processRepo_rows]

theorem processRepos_events (env : Env) (orgName : String) (repos : List Repo) :
    (processRepos env orgName repos).events
      = repos.flatMap
          (fun r => [.procRepo r.name, .netFetchLabels orgName r.name, .pause 1000]) := by
  induction repos with
  | nil => rfl
  | cons repo rest ih =>
      simp [processRepos, ih, processRepo_events]

theorem processRepos_err_mem (env : Env) (orgName : String) {repos : List Repo}
    {repo : Repo} (hmem : repo ∈ repos) {m : String}
    (hm : m ∈ (processRepo env orgName repo).err) :
    m ∈ (processRepos env orgName repos).err := by
  induction repos with
  | nil => cases hmem
  | cons r rest ih =>
      rcases List.mem_cons.mp hmem with h | h
      · subst h
        simp [processRepos]
        exact Or.inl hm
      · simp [processRepos]
        exact Or.inr (ih h)

theorem run_of_listing_ok (env : Env) (orgName : String) (repos : List Repo)
    (harg : truthyArg env.argv2 = some orgName)
    (hrepos : env.reposResponse = .ok repos) :
    (run env).exitCode = 0 ∧
    (run env).events
      = .netListRepos orgName :: (processRepos env orgName repos).events ++ [.writeFile] ∧
    (∀ m, m ∈ (processRepos env orgName repos).err → m ∈ (run env).stderr) ∧
    (env.writeResult = .ok () →
      (run env).fileWritten = some (csvContent (processRepos env orgName repos).rows)) := by
  unfold run
  rw [harg]
  unfold getAllReposForOrg
  rw [hrepos]
  cases hw : env.writeResult with
  | error msg => simp; exact fun m hm => Or.inl hm
  | ok u => cases u; simp

theorem repoRows_length (env : Env) (orgName : String) (r : Repo) :
    (repoRows env orgName r).length
      = (match env.labelsResponse orgName r.name with
          | .ok labels => labels.length
          | .error _ => 0) := by
  unfold repoRows getRepoLabels
  cases env.labelsResponse orgName r.name <;> simp

theorem flatMap_repoRows_length (env : Env) (orgName : String) (repos : List Repo) :
    (repos.flatMap (repoRows env orgName)).length
      = (repos.map (fun r =>
            match env.labelsResponse orgName r.name with
            | .ok labels => labels.length
            | .error _ => 0)).sum := by
  induction repos with
  | nil => rfl
  | cons r t ih => simp [ih, repoRows_length]

theorem countPause_append (a b : List Event) :
    countPause (a ++ b) = countPause a + countPause b := by
  induction a with
  | nil => simp [countPause]
  | cons e t ih =>
      cases e with
      | netListRepos s => simp [countPause, ih]
      | procRepo s => simp [countPause, ih]
      | netFetchLabels a b => simp [countPause, ih]
      | pause n => simp [countPause, ih]; omega
      | writeFile => simp [countPause, ih]

theorem lastChar_append_of (s t : String) (c : Char) (h : lastChar t = some c) :
    lastChar (s ++ t) = some c := by
  unfold lastChar at h ⊢
  rw [String.data_append, List.getLast?_append, h]
  rfl

theorem lastChar_append_quote (t : String) : lastChar (t ++ "\"") = some '\"' := by
  unfold lastChar
  rw [String.data_append, List.getLast?_append]
  rfl

theorem lastChar_renderRow (r : Row) : lastChar (renderRow r) = some '\"' := by
  unfold renderRow
  exact lastChar_append_quote _

theorem lastChar_joinNl (r : Row) (rs : List Row) :
    lastChar (joinNl ((r :: rs).map renderRow)) = some '\"' := by
  induction rs generalizing r with
  | nil => exact lastChar_renderRow r
  | cons b t ih =>
      show lastChar (renderRow r ++ "\n" ++ joinNl ((b :: t).map renderRow)) = some '\"'
      exact lastChar_append_of _ _ _ (ih b)

/-! ### Claim theorems -/

/-- C1 counterexample: in the concrete environment `envListFail` the
repository-listing call fails, yet the process exit code is 0, not 1 — the
top-level `.catch` handler only logs the error and never sets a non-zero
exit code, contradicting the claim that a listing failure yields exit
code 1. -/
theorem exit_code_claim_cex :
    envListFail.reposResponse = Except.error "Not Found" ∧
    (run envListFail).exitCode = 0 := by
  exact ⟨rfl, rfl⟩

/-- C1 (amended): the exit code is 1 exactly when the organization argument
is missing (or empty); in every other case the script exits 0, including
runs in which some repositories' label calls failed, and also runs in which
the repository-listing call or the final write failed, because the
top-level `.catch` handler only prints a diagnostic and does not set a
non-zero exit code. -/
theorem run_exitCode_characterization (env : Env) :
    (run env).exitCode = if truthyArg env.argv2 = none then 1 else 0 := by
  unfold run
  cases h : truthyArg env.argv2 with
  | none => simp
  | some orgName =>
      unfold getAllReposForOrg
      cases env.reposResponse with
      | error s => simp
      | ok repos =>
          cases hw : env.writeResult with
          | error m => simp
          | ok u => cases u; simp

/-- C3: if the repository-listing call fails, the run terminates without
writing the output file: the only event of the run is the listing call
itself — no label fetch, no pause and in particular no write attempt ever
happens, so no partial output is produced. -/
theorem listing_failure_no_output (env : Env) (orgName s : String)
    (harg : truthyArg env.argv2 = some orgName)
    (hfail : env.reposResponse = .error s) :
    (run env).fileWritten = none ∧
    (run env).events = [.netListRepos orgName] ∧
    Event.writeFile ∉ (run env).events := by
  unfold run
  rw [harg]
  unfold getAllReposForOrg
  rw [hfail]
  simp

/-- C3 witness: instantiation at the concrete environment `envListFail`. -/
theorem listing_failure_no_output_witness :
    (run envListFail).fileWritten = none ∧
    (run envListFail).events = [.netListRepos "acme"] ∧
    Event.writeFile ∉ (run envListFail).events :=
  listing_failure_no_output envListFail "acme" "Not Found" rfl rfl

/-- C6: if the organization argument is absent, the script prints the usage
diagnostic to standard error and exits with code 1; its event trace is
empty, so in particular no network call is performed. -/
theorem missing_arg_aborts (env : Env) (h : env.argv2 = none) :
    (run env).exitCode = 1 ∧
    (run env).stderr = ["Please provide a GitHub organization name as an argument."] ∧
    (run env).events = [] := by
  have ht : truthyArg env.argv2 = none := by rw [h]; rfl
  unfold run
  rw [ht]
  exact ⟨rfl, rfl, rfl⟩

/-- C6 witness: instantiation at the concrete environment `envNoArg`. -/
theorem missing_arg_aborts_witness :
    (run envNoArg).exitCode = 1 ∧
    (run envNoArg).stderr = ["Please provide a GitHub organization name as an argument."] ∧
    (run envNoArg).events = [] :=
  missing_arg_aborts envNoArg rfl

/-- C2: when the label fetch fails for one repository among the listed
ones, that repository contributes zero rows, the diagnostic naming the
repository and the underlying error appears on standard error, the run
continues to completion with exit code 0, and the aggregate is exactly
the concatenation of every listed repository's own contribution — so the
failure never alters another repository's rows. -/
theorem label_failure_isolated (env : Env) (orgName : String) (repos : List Repo)
    (repo : Repo) (e : String)
    (harg : truthyArg env.argv2 = some orgName)
    (hrepos : env.reposResponse = .ok repos)
    (hmem : repo ∈ repos)
    (hfail : env.labelsResponse orgName repo.name = .error e) :
    repoRows env orgName repo = [] ∧
    ("Error fetching labels for " ++ repo.name ++ ": "
        ++ ("Failed to fetch labels for " ++ repo.name ++ ": " ++ e))
      ∈ (run env).stderr ∧
    (run env).exitCode = 0 ∧
    (processRepos env orgName repos).rows = repos.flatMap (repoRows env orgName) := by
  have hlab : getRepoLabels env orgName repo
      = .error ("Failed to fetch labels for " ++ repo.name ++ ": " ++ e) := by
    unfold getRepoLabels
    rw [hfail]
  have h0 : repoRows env orgName repo = [] := by
    unfold repoRows
    rw [hlab]
  have hrun := run_of_listing_ok env orgName repos harg hrepos
  refine ⟨h0, ?_, hrun.1, processRepos_rows env orgName repos⟩
  apply hrun.2.2.1
  apply processRepos_err_mem env orgName hmem
  unfold processRepo
  rw [hlab]
  simp

/-- C2 witness: in `envTwoRepos` the repository `web` fails, contributes no
rows, is named in a diagnostic, and the run still exits 0 with the rows of
every listed repository aggregated in order. -/
theorem label_failure_isolated_witness :
    repoRows envTwoRepos "acme" ⟨"web"⟩ = [] ∧
    ("Error fetching labels for " ++ "web" ++ ": "
        ++ ("Failed to fetch labels for " ++ "web" ++ ": " ++ "Not Found"))
      ∈ (run envTwoRepos).stderr ∧
    (run envTwoRepos).exitCode = 0 ∧
    (processRepos envTwoRepos "acme" [⟨"core"⟩, ⟨"web"⟩]).rows
      = [⟨"core"⟩, ⟨"web"⟩].flatMap (repoRows envTwoRepos "acme") :=
  label_failure_isolated envTwoRepos "acme" [⟨"core"⟩, ⟨"web"⟩] ⟨"web"⟩ "Not Found"
    rfl rfl (by decide) rfl

/-- C4: on a successful run the written file is the serialization of the
aggregated rows, and the number of aggregated rows equals the sum, over
all listed repositories, of the label count for those whose label call
succeeded (a failed repository counting zero). -/
theorem row_count_eq_sum (env : Env) (orgName : String) (repos : List Repo)
    (harg : truthyArg env.argv2 = some orgName)
    (hrepos : env.reposResponse = .ok repos)
    (hw : env.writeResult = .ok ()) :
    (run env).fileWritten = some (csvContent (processRepos env orgName repos).rows) ∧
    (processRepos env orgName repos).rows.length
      = (repos.map (fun r =>
            match env.labelsResponse orgName r.name with
            | .ok labels => labels.length
            | .error _ => 0)).sum := by
  refine ⟨(run_of_listing_ok env orgName repos harg hrepos).2.2.2 hw, ?_⟩
  rw [processRepos_rows]
  exact flatMap_repoRows_length env orgName repos

/-- C4 witness: in `envTwoRepos`, `core` contributes its one label and the
failing `web` contributes zero, so the aggregate has exactly one row. -/
theorem row_count_eq_sum_witness :
    (run envTwoRepos).fileWritten
      = some (csvContent (processRepos envTwoRepos "acme" [⟨"core"⟩, ⟨"web"⟩]).rows) ∧
    (processRepos envTwoRepos "acme" [⟨"core"⟩, ⟨"web"⟩]).rows.length
      = ([⟨"core"⟩, ⟨"web"⟩].map (fun (r : Repo) =>
            match envTwoRepos.labelsResponse "acme" r.name with
            | .ok labels => labels.length
            | .error _ => 0)).sum ∧
    (processRepos envTwoRepos "acme" [⟨"core"⟩, ⟨"web"⟩]).rows.length = 1 := by
  have h := row_count_eq_sum envTwoRepos "acme" [⟨"core"⟩, ⟨"web"⟩] rfl rfl rfl
  exact ⟨h.1, h.2, by decide⟩

/-- C7: data rows appear in repository listing order — the aggregate is
the in-order concatenation over the listed repositories — and within each
repository in the platform's label listing order, since a successful
repository's contribution is its label list mapped to rows in returned
order; no sorting or permutation is applied anywhere. -/
theorem row_order (env : Env) (orgName : String) (repos : List Repo)
    (harg : truthyArg env.argv2 = some orgName)
    (hrepos : env.reposResponse = .ok repos)
    (hw : env.writeResult = .ok ()) :
    (run env).fileWritten = some (csvContent (repos.flatMap (repoRows env orgName))) ∧
    ∀ (repo : Repo) (labels : List Label),
      env.labelsResponse orgName repo.name = .ok labels →
      repoRows env orgName repo = labels.map (mkRow repo.name) := by
  constructor
  · have h := (run_of_listing_ok env orgName repos harg hrepos).2.2.2 hw
    rw [processRepos_rows] at h
    exact h
  · intro repo labels h
    unfold repoRows getRepoLabels
    rw [h]

/-- C7 witness: in `envTwoRepos` the written file is exactly the worked
example of the specification: header, then `core`'s single label row. -/
theorem row_order_witness :
    (run envTwoRepos).fileWritten
      = some (csvContent ([⟨"core"⟩, ⟨"web"⟩].flatMap (repoRows envTwoRepos "acme"))) ∧
    repoRows envTwoRepos "acme" ⟨"core"⟩
      = [Label.mk "bug" (.str "") "d73a4a"].map (mkRow "core") ∧
    (run envTwoRepos).fileWritten
      = some "Repo,Label,Description,Color\n\"core\",\"bug\",\"\",\"#d73a4a\"" := by
  have h := row_order envTwoRepos "acme" [⟨"core"⟩, ⟨"web"⟩] rfl rfl rfl
  exact ⟨h.1, h.2 ⟨"core"⟩ [Label.mk "bug" (.str "") "d73a4a"] rfl, by decide⟩

/-- C5: every data row renders the fields in the order
Repo, Label, Description, Color, each double-quote-wrapped and
comma-separated with the field values inserted verbatim (no escaping of
embedded quotes or commas), an absent description rendering as an empty
quoted field, and the color rendered with a prepended `#`. -/
theorem row_rendering :
    (∀ (rn : String) (l : Label),
        renderRow (mkRow rn l)
          = "\"" ++ rn ++ "\",\"" ++ l.name ++ "\",\"" ++ l.description.orEmpty.display
              ++ "\",\"#" ++ l.color ++ "\"") ∧
    renderRow (mkRow "core" (Label.mk "bug" .undefined "d73a4a"))
      = "\"core\",\"bug\",\"\",\"#d73a4a\"" ∧
    renderRow (mkRow "core" (Label.mk "bug" (.str "desc") "ff00aa"))
      = "\"core\",\"bug\",\"desc\",\"#ff00aa\"" ∧
    renderRow (mkRow "r" (Label.mk "a\"b,c" .null "fff"))
      = "\"r\",\"a\"b,c\",\"\",\"#fff\"" := by
  refine ⟨fun rn l => rfl, by decide, by decide, by decide⟩

/-- C8: every iteration of the per-repository loop — whether the label
call succeeded or failed — emits exactly the same event shape: the
processing step, the label network call, then one 1000 ms pause; hence
the loop trace interleaves exactly one pause between consecutive
repository-processing steps, and the number of pauses equals the number
of repositories. -/
theorem pause_after_each_repo (env : Env) (orgName : String) (repos : List Repo) :
    (processRepos env orgName repos).events
      = repos.flatMap (fun r =>
          [.procRepo r.name, .netFetchLabels orgName r.name, .pause 1000]) ∧
    countPause (processRepos env orgName repos).events = repos.length := by
  refine ⟨processRepos_events env orgName repos, ?_⟩
  induction repos with
  | nil => rfl
  | cons r t ih =>
      have h1 : (processRepos env orgName (r :: t)).events
          = (processRepo env orgName r).events ++ (processRepos env orgName t).events := rfl
      rw [h1, countPause_append, processRepo_events]
      simp [countPause, ih]
      omega

/-- C9: the description normalization is a falsiness check: for every
label whose description is any falsy JavaScript value — absent
(`undefined`), `null`, the empty string, `false`, or `0` — the stored row
carries the empty string as its description, which renders as an empty
field; all five falsy values are listed explicitly. -/
theorem falsy_description_normalized :
    (∀ (rn : String) (l : Label), l.description.falsy = true →
        mkRow rn l
          = { repo := rn, label := l.name, description := .str "", color := l.color }) ∧
    JSVal.display (.str "") = "" ∧
    JSVal.falsy .undefined = true ∧
    JSVal.falsy .null = true ∧
    JSVal.falsy (.str "") = true ∧
    JSVal.falsy (.boolean false) = true ∧
    JSVal.falsy (.num 0) = true := by
  refine ⟨?_, rfl, rfl, rfl, rfl, rfl, rfl⟩
  intro rn l h
  simp [mkRow, JSVal.orEmpty, h]

/-- C9 witness: a non-string falsy description (the number `0`) is
normalized to the empty string and renders as an empty quoted field. -/
theorem falsy_description_normalized_witness :
    JSVal.falsy (.num 0) = true ∧
    mkRow "repo1" (Label.mk "lbl" (.num 0) "abc123")
      = { repo := "repo1", label := "lbl", description := .str "", color := "abc123" } ∧
    renderRow (mkRow "repo1" (Label.mk "lbl" (.num 0) "abc123"))
      = "\"repo1\",\"lbl\",\"\",\"#abc123\"" :=
  ⟨rfl,
    falsy_description_normalized.1 "repo1" (Label.mk "lbl" (.num 0) "abc123") rfl,
    by decide⟩

/-- C10: with zero data rows the serialized file is exactly the header
followed by one newline; with at least one data row the file ends in the
closing double quote of the last row, so it has no trailing newline. -/
theorem trailing_newline_shape :
    csvContent [] = "Repo,Label,Description,Color\n" ∧
    ∀ (r : Row) (rows : List Row),
      lastChar (csvContent (r :: rows)) = some '\"' ∧
      lastChar (csvContent (r :: rows)) ≠ some '\n' := by
  refine ⟨by decide, fun r rows => ?_⟩
  have h : lastChar (csvContent (r :: rows)) = some '\"' :=
    lastChar_append_of _ _ _ (lastChar_joinNl r rows)
  refine ⟨h, ?_⟩
  rw [h]
  decide

end GhLabels
